import Mathlib

/-!
Shallow embedding of the bmcbutler asset pipeline:
inventory sources (csv, ip-list, enc) and the butler dispatch
(msgHandler, configureAsset, executeCommand).
-/

namespace BmcButler

/-- Asset (pkg/asset): a manageable BMC/CMC endpoint.  `ipAddresses` is the
candidate address list used for login; `ipAddress` is the single active
address recorded after a successful login. -/
structure Asset where
  ipAddresses : List String := []
  ipAddress : String := ""
  serial : String := ""
  vendor : String := ""
  type : String := ""
  hardwareType : String := ""
  location : String := ""
  extra : List (String × String) := []
  configure : Bool := false
  execute : Bool := false
deriving DecidableEq

/-- NetworkInterface (enc.go): one interface of an ENC attributes record. -/
structure NetworkInterface where
  name : String
  macAddress : String
  ipAddress : String
deriving DecidableEq

/-- AttributesExtras (enc.go). -/
structure AttributesExtras where
  state : String := ""
  company : String := ""
  liveAssets : Option (List String) := none
deriving DecidableEq

/-- Attributes (enc.go): one ENC response record.  The Go `Extras` field is a
pointer that every use site dereferences unconditionally, so it is embedded
as a plain value. -/
structure Attributes where
  location : String := ""
  networkInterfaces : Option (List NetworkInterface) := none
  bmcIPAddresses : List String := []
  extras : AttributesExtras := {}
deriving DecidableEq

/-- Go strings.Split(s, ",") at the character level (structural so that the
kernel can evaluate it); Go returns [""] for the empty string, as here. -/
def splitCommaChars : List Char → List (List Char)
  | [] => [[]]
  | c :: rest =>
    let r := splitCommaChars rest
    if c = ',' then [] :: r
    else
      match r with
      | [] => [[c]]
      | h :: t => (c :: h) :: t

/-- Go strings.Split(s, ","). -/
def splitComma (s : String) : List String :=
  (splitCommaChars s.toList).map fun cs => String.mk cs

/-- Go strings.ToLower. -/
def toLowerStr (s : String) : String := String.mk (s.toList.map Char.toLower)

/-- Go strings.Join(l, ","). -/
def joinComma : List String → String
  | [] => ""
  | [x] => x
  | x :: rest => x ++ "," ++ joinComma rest

/-- stringHasPrefix (enc.go lines 229-237), renamed here: true when the
lowercased string starts with one of the configured name starts. -/
def stringHasPfx (s : String) (pfxs : List String) : Bool :=
  pfxs.any fun p => p.toList.isPrefixOf (s.toList.map Char.toLower)

/-- The body of the SetBMCInterfaces loop (enc.go lines 247-251). -/
def bmcNicStep (pfxs : List String) (attrs : Attributes) (nic : NetworkInterface) :
    Attributes :=
  if stringHasPfx nic.name pfxs = true ∧ nic.ipAddress ≠ "" ∧ nic.ipAddress ≠ "0.0.0.0"
  then { attrs with bmcIPAddresses := attrs.bmcIPAddresses ++ [nic.ipAddress] }
  else attrs

/-- Enc.SetBMCInterfaces (enc.go lines 241-254): appends to `bmcIPAddresses`
every interface address whose interface name matches a configured BMC NIC
name start and whose address is neither empty nor 0.0.0.0.  `pfxs` embeds
`e.Config.Inventory.Enc.BMCNicPrefix`. -/
def SetBMCInterfaces (pfxs : List String) (attributes : Attributes) : Attributes :=
  match attributes.networkInterfaces with
  | none => attributes
  | some nics => nics.foldl (bmcNicStep pfxs) attributes

/-- AttributesExtrasAsMap (enc.go lines 258-271), the Go map in insertion
order. -/
def AttributesExtrasAsMap (x : AttributesExtras) : List (String × String) :=
  [("state", toLowerStr x.state),
   ("company", toLowerStr x.company),
   ("liveAssets",
     match x.liveAssets with
     | some l => toLowerStr (joinComma l)
     | none => "")]

/-- One Go `range` pass of the reconciliation removal loop
(enc.go lines 386-391 and 478-482):

    for idx, s := range missing
      if s == key
        missing = append(missing[:idx], missing[idx+1:]...)

The range bound is the length at loop entry; the appends shrink the slice in
place, so later reads come from the mutated backing array.  State: `b` is the
backing array (its length never changes), `l` the current slice length, `idx`
the range index, `r` the iterations left.  `none` embeds the runtime panic Go
raises for `missing[idx+1:]` when `idx + 1` exceeds the current length. -/
def purgeAux (key : String) : Nat → List String → Nat → Nat → Option (List String × Nat)
  | 0, b, l, _ => some (b, l)
  | r + 1, b, l, idx =>
    if b.getD idx "" = key then
      if l < idx + 1 then none
      else
        purgeAux key r
          (b.take idx ++ (b.drop (idx + 1)).take (l - 1 - idx) ++ b.drop (l - 1))
          (l - 1) (idx + 1)
    else purgeAux key r b l (idx + 1)

/-- The full removal loop over a slice value. -/
def purge (key : String) (missing : List String) : Option (List String) :=
  (purgeAux key missing.length missing missing.length 0).map fun p => p.1.take p.2

theorem purgeAux_nomatch (key : String) :
    ∀ (r : Nat) (b : List String) (l idx : Nat),
      (∀ j, idx ≤ j → j < idx + r → b.getD j "" ≠ key) →
      purgeAux key r b l idx = some (b, l) := by
  intro r
  induction r with
  | zero => intro b l idx _; rfl
  | succ r ih =>
    intro b l idx h
    have h0 : b.getD idx "" ≠ key := h idx (Nat.le_refl _) (by omega)
    simp only [purgeAux, if_neg h0]
    exact ih b l (idx + 1) fun j hj1 hj2 => h j (by omega) (by omega)

theorem purgeAux_skip (key : String) :
    ∀ (k r : Nat) (b : List String) (l idx : Nat),
      (∀ j, idx ≤ j → j < idx + k → b.getD j "" ≠ key) →
      purgeAux key (k + r) b l idx = purgeAux key r b l (idx + k) := by
  intro k
  induction k with
  | zero => intro r b l idx _; simp
  | succ k ih =>
    intro r b l idx h
    have h0 : b.getD idx "" ≠ key := h idx (Nat.le_refl _) (by omega)
    have hre : k + 1 + r = (k + r) + 1 := by omega
    rw [hre]
    simp only [purgeAux, if_neg h0]
    rw [ih r b l (idx + 1) fun j hj1 hj2 => h j (by omega) (by omega)]
    congr 1
    omega

/-- When the key occurs at most once (in particular for any list without
duplicates), the Go removal loop terminates without a panic and removes
exactly the first occurrence. -/
theorem purge_of_count_le_one (key : String) (missing : List String)
    (h : missing.count key ≤ 1) :
    purge key missing = some (missing.erase key) := by
  by_cases hm : key ∈ missing
  · obtain ⟨xs, ys, hsplit⟩ := List.append_of_mem hm
    subst hsplit
    have hcnt : (xs ++ key :: ys).count key = xs.count key + (ys.count key + 1) := by
      simp [List.count_append]
    have hxs : key ∉ xs := by
      intro hk
      have := List.count_pos_iff.mpr hk
      omega
    have hys : key ∉ ys := by
      intro hk
      have := List.count_pos_iff.mpr hk
      omega
    have hlen : (xs ++ key :: ys).length = xs.length + (ys.length + 1) := by
      simp
    unfold purge
    rw [hlen]
    rw [purgeAux_skip key xs.length (ys.length + 1) _ _ 0
      (by
        intro j hj1 hj2
        have hj : j < xs.length := by omega
        rw [List.getD_append _ _ _ _ (by simpa using hj)]
        rw [List.getD_eq_getElem _ _ hj]
        intro hEq
        exact hxs (hEq ▸ List.getElem_mem hj))]
    have hidx : (xs ++ key :: ys).getD (0 + xs.length) "" = key := by
      rw [Nat.zero_add, List.getD_append_right _ _ _ _ (Nat.le_refl _)]
      simp
    simp only [purgeAux, if_pos hidx]
    rw [if_neg (by omega)]
    have hb1 : (xs ++ key :: ys).take (0 + xs.length) = xs := by
      rw [Nat.zero_add]
      exact List.take_left xs (key :: ys)
    have hb2 : (xs ++ key :: ys).drop (0 + xs.length + 1) = ys := by
      rw [Nat.zero_add]
      have hassoc : xs ++ key :: ys = (xs ++ [key]) ++ ys := by simp
      rw [hassoc, List.drop_left' (by simp)]
    have harith : xs.length + (ys.length + 1) - 1 - (0 + xs.length) = ys.length := by
      omega
    rw [hb1, hb2, harith, List.take_length]
    have herase : (xs ++ key :: ys).erase key = xs ++ ys := by
      rw [List.erase_append_right _ hxs, List.erase_cons_head]
    rcases Nat.eq_zero_or_pos ys.length with hy0 | hypos
    · have hye : ys = [] := List.length_eq_zero.mp hy0
      subst hye
      simp only [List.length_nil, purgeAux, Option.map_some']
      rw [herase]
      congr 1
      have harith2 : xs.length + (0 + 1) - 1 = xs.length := by omega
      rw [harith2, List.drop_left xs [key]]
      simp [List.take_left]
    · rcases List.eq_nil_or_concat ys with he | ⟨ys', y, hconc⟩
      · rw [he] at hypos; simp at hypos
      have hconc' : ys = ys' ++ [y] := by
        rw [hconc, List.concat_eq_append]
      have hymem : y ∈ ys := by rw [hconc']; simp
      have hdropLast :
          (xs ++ key :: ys).drop (xs.length + (ys.length + 1) - 1) = [y] := by
        have hsplit2 : xs ++ key :: ys = ((xs ++ [key]) ++ ys') ++ [y] := by
          rw [hconc']; simp
        rw [hsplit2, List.drop_left' (by simp [hconc'])]
      rw [hdropLast]
      rw [purgeAux_nomatch key ys.length _ _ _
        (by
          intro j hj1 hj2
          have hjlt : j < ((xs ++ ys) ++ [y]).length := by simp; omega
          rw [List.getD_eq_getElem _ _ hjlt]
          intro hEq
          have hmem : key ∈ (xs ++ ys) ++ [y] := hEq ▸ List.getElem_mem hjlt
          simp only [List.mem_append, List.mem_singleton] at hmem
          rcases hmem with (h1 | h2) | h3
          · exact hxs h1
          · exact hys h2
          · exact hys (by rw [h3]; exact hymem))]
      simp only [Option.map_some']
      rw [herase]
      congr 1
      have hre2 : xs.length + (ys.length + 1) - 1 = (xs ++ ys).length := by
        simp
      rw [hre2]
      exact List.take_left (xs ++ ys) [y]
  · have hread : ∀ j, 0 ≤ j → j < 0 + missing.length → missing.getD j "" ≠ key := by
      intro j _ hj2
      have hj : j < missing.length := by omega
      rw [List.getD_eq_getElem _ _ hj]
      intro hEq
      exact hm (hEq ▸ List.getElem_mem hj)
    unfold purge
    rw [purgeAux_nomatch key missing.length missing missing.length 0 hread]
    simp [List.erase_of_not_mem hm, List.take_length]

/-- The found asset appended for a record with valid addresses
(enc.go lines 394-400 and 486-492): resolved addresses, the map key as
serial, location and extras. -/
def encFoundAsset (pfxs : List String) (kv : String × Attributes) : Asset :=
  { ipAddresses := (SetBMCInterfaces pfxs kv.2).bmcIPAddresses,
    serial := kv.1,
    location := (SetBMCInterfaces pfxs kv.2).location,
    extra := AttributesExtrasAsMap (SetBMCInterfaces pfxs kv.2).extras }

theorem encFoundAsset_serial (pfxs : List String) (kv : String × Attributes) :
    (encFoundAsset pfxs kv).serial = kv.1 := rfl

theorem encFoundAsset_ipAddresses (pfxs : List String) (kv : String × Attributes) :
    (encFoundAsset pfxs kv).ipAddresses = (SetBMCInterfaces pfxs kv.2).bmcIPAddresses := rfl

/-- One record of the encQueryBySerial loop (enc.go lines 378-401): a record
with no valid BMC address is skipped (its serial stays missing and the no-ip
counter is bumped); otherwise its serial is purged from the missing list and
a found asset is appended. -/
def serialStep (pfxs : List String) (st : List String × List Asset)
    (kv : String × Attributes) : Option (List String × List Asset) :=
  let attributes := SetBMCInterfaces pfxs kv.2
  if attributes.bmcIPAddresses.length = 0 then
    some st
  else
    match purge kv.1 st.1 with
    | none => none
    | some missingSerials =>
      some (missingSerials, st.2 ++ [encFoundAsset pfxs kv])

/-- Enc.encQueryBySerial (enc.go lines 339-413) after a successful lookup
command and JSON unmarshal (a failure of either is fatal to the process);
`data` is the response map in Go iteration order and `serials` the raw
comma-separated request.  An empty response logs a warning and returns an
empty slice.  Remaining missing serials are appended as placeholder assets
carrying only the serial.  `none` embeds a panic of the removal loop. -/
def encQueryBySerial (pfxs : List String) (serials : String)
    (data : List (String × Attributes)) : Option (List Asset) :=
  if data.length = 0 then some []
  else
    match data.foldlM (serialStep pfxs) (splitComma serials, []) with
    | none => none
    | some (missingSerials, assets) =>
      some (assets ++ missingSerials.map fun serial =>
        { serial := serial, ipAddresses := [] })

/-- One record of the encQueryByIP loop (enc.go lines 469-493).  When a record
has no valid BMC address the source calls populateAssetsWithNoAttributes,
which appends one placeholder asset for EVERY requested IP, and continues the
loop; otherwise every address of the record is purged from the missing list
and a found asset is appended. -/
def ipStep (pfxs : List String) (ips : String) (st : List String × List Asset)
    (kv : String × Attributes) : Option (List String × List Asset) :=
  let attributes := SetBMCInterfaces pfxs kv.2
  if attributes.bmcIPAddresses.length = 0 then
    some (st.1, st.2 ++ (splitComma ips).map fun ip => { ipAddresses := [ip] })
  else
    match attributes.bmcIPAddresses.foldlM (fun m a => purge a m) st.1 with
    | none => none
    | some missingIPs =>
      some (missingIPs, st.2 ++ [encFoundAsset pfxs kv])

/-- Enc.encQueryByIP (enc.go lines 416-505).  `cmdErr` is whether the lookup
command returned an error (logged as a warning and answered with one
placeholder asset per requested IP); an unmarshal failure is fatal and out of
scope.  An empty response also yields one placeholder per requested IP.
Remaining missing IPs are appended as placeholders at the end. -/
def encQueryByIP (pfxs : List String) (ips : String) (cmdErr : Bool)
    (data : List (String × Attributes)) : Option (List Asset) :=
  if cmdErr then some ((splitComma ips).map fun ip => { ipAddresses := [ip] })
  else if data.length = 0 then
    some ((splitComma ips).map fun ip => { ipAddresses := [ip] })
  else
    match data.foldlM (ipStep pfxs ips) (splitComma ips, []) with
    | none => none
    | some (missingIPs, assets) =>
      some (assets ++ missingIPs.map fun ip => { ipAddresses := [ip] })

/-- CsvAsset (csv.go lines 27-32): one row of the csv inventory. -/
structure CsvAsset where
  bmcAddress : String
  serial : String := ""
  vendor : String := ""
  type : String := ""
deriving DecidableEq

/-- The asset built from one csv row (csv.go lines 95-100 / 162-167). -/
def csvRowAsset (item : CsvAsset) : Asset :=
  { ipAddresses := [item.bmcAddress], serial := item.serial,
    vendor := item.vendor, type := item.type }

/-- The row body of the Csv.AssetIter loop (csv.go lines 152-168). -/
def csvRowStep (assets : List Asset) (item : Option CsvAsset) : List Asset :=
  match item with
  | none => assets
  | some item =>
    if item.bmcAddress = "" then assets
    else assets ++ [csvRowAsset item]

/-- Csv.AssetIter (csv.go lines 148-172): full scan.  `records` embeds the
parsed csv rows (`none` is a nil row pointer).  The returned list is the one
batch sent over the channel before it is closed. -/
def Csv.AssetIter (records : List (Option CsvAsset)) : List Asset :=
  records.foldl csvRowStep []

/-- The row body of the inner Csv.AssetIterBySerial loop (csv.go lines
86-102). -/
def csvSerialRowStep (serial : String) (assets : List Asset)
    (item : Option CsvAsset) : List Asset :=
  match item with
  | none => assets
  | some item =>
    if item.bmcAddress = "" then assets
    else if item.serial = serial then assets ++ [csvRowAsset item]
    else assets

/-- Csv.AssetIterBySerial (csv.go lines 77-107): for every requested serial,
every matching row (nil rows and rows with an empty bmcaddress skipped)
produces one asset; the batch is sent and the channel closed. -/
def Csv.AssetIterBySerial (serials : String) (records : List (Option CsvAsset)) :
    List Asset :=
  (splitComma serials).foldl
    (fun assets serial => records.foldl (csvSerialRowStep serial) assets)
    []

/-- The row body of the inner Csv.AssetIterByIP lookup loop (csv.go lines
126-139). -/
def csvIPRowStep (ip : String) (a : Asset) (item : Option CsvAsset) : Asset :=
  match item with
  | none => a
  | some item =>
    if item.bmcAddress = "" then a
    else if item.bmcAddress = ip then
      { a with serial := item.serial, vendor := item.vendor, type := item.type }
    else a

/-- Csv.AssetIterByIP (csv.go lines 112-145): one asset per requested IP,
enriched with the attributes of every row whose bmcaddress equals the IP
(later rows overwrite earlier ones); nil rows and rows with an empty
bmcaddress are skipped. -/
def Csv.AssetIterByIP (ips : String) (records : List (Option CsvAsset)) :
    List Asset :=
  (splitComma ips).foldl
    (fun assets ip =>
      assets ++ [records.foldl (csvIPRowStep ip) { ipAddresses := [ip] }])
    []

/-- IPList.AssetIter (iplist.go lines 26-36): synthesizes one asset per
comma-separated address, storing it in the scalar `ipAddress` field, and
sends them as a single batch before closing the channel. -/
def IPList.AssetIter (ips : String) : List Asset :=
  (splitComma ips).map fun ip => { ipAddress := ip }

/-- The inner pagination loop of Enc.AssetIter (enc.go lines 606-633) for one
asset type.  `query offset` embeds encQueryByOffset (its bounded retry is
internal; exhaustion is fatal and out of scope) and returns the page and the
end-of-assets flag; `intr i` is the value of the interrupt flag read at
iteration `i`.  Every iteration sends its page on the channel before testing
the exit condition; `fuel` bounds the recursion.  Returns the
(offset, page) pairs sent. -/
def assetIterLoop (query : Nat → List Asset × Bool) (intr : Nat → Bool)
    (limit : Nat) : Nat → Nat → Nat → List (Nat × List Asset)
  | _, _, 0 => []
  | offset, i, fuel + 1 =>
    let page := query offset
    (offset, page.1) ::
      (if page.2 || intr i then []
       else assetIterLoop query intr limit (offset + limit) (i + 1) fuel)

/-- Enc.AssetIter (enc.go lines 593-635): for every configured asset type the
offset restarts at 0 and the inner loop runs; the channel is closed after the
last type. -/
def Enc.AssetIter (types : List String) (query : String → Nat → List Asset × Bool)
    (intr : String → Nat → Bool) (limit fuel : Nat) :
    List (String × List (Nat × List Asset)) :=
  types.map fun assetType =>
    (assetType, assetIterLoop (query assetType) (intr assetType) limit 0 0 fuel)

/-- The butler state that msgHandler consults (butler.go): the interrupt
flag, the locally managed locations and the IgnoreLocation override. -/
structure ButlerParams where
  interrupt : Bool := false
  locations : List String := []
  ignoreLocation : Bool := false
deriving DecidableEq

/-- Butler.myLocation (msg_handler.go lines 667-675). -/
def myLocation (locations : List String) (location : String) : Bool :=
  locations.any fun l => l = location

/-- Msg (butler): the message consumed by msgHandler; `assetExecute` is the
command to run when the execute flag is set. -/
structure Msg where
  asset : Asset
  assetExecute : String := ""
deriving DecidableEq

/-- The observable outcome of one msgHandler call: which filter dropped the
message or which action ran (with whether the collaborator reported an
error). -/
inductive HandlerAction where
  | droppedInterrupt
  | droppedNoIP
  | droppedLocation
  | executed (failed : Bool)
  | configured (failed : Bool)
  | unknownAction
deriving DecidableEq

/-- Butler.msgHandler (msg_handler.go lines 679-766).  `executeResult` and
`configureResult` embed the returns of executeCommand and configureAsset for
this message (only the branch actually taken consults its result).  Note the
no-IP filter tests only for an empty list or the single entry 0.0.0.0, and
the switch tests the execute flag before the configure flag. -/
def msgHandler (b : ButlerParams) (msg : Msg)
    (executeResult : Option String) (configureResult : Option String) :
    HandlerAction :=
  if b.interrupt then .droppedInterrupt
  else if msg.asset.ipAddresses.length = 0 ∨
      (msg.asset.ipAddresses.length = 1 ∧ msg.asset.ipAddresses.getD 0 "" = "0.0.0.0") then
    .droppedNoIP
  else if msg.asset.location ≠ "" ∧
      myLocation b.locations msg.asset.location = false ∧ b.ignoreLocation = false then
    .droppedLocation
  else if msg.asset.execute = true then
    match executeResult with
    | some _ => .executed true
    | none => .executed false
  else if msg.asset.configure = true then
    match configureResult with
    | some _ => .configured true
    | none => .configured false
  else .unknownAction

/-- Counter butler.asset_recvd_noip: incremented exactly on the no-IP drop. -/
def counterNoIP : HandlerAction → Nat
  | .droppedNoIP => 1
  | _ => 0

/-- Counter butler.execute_success. -/
def counterExecuteSuccess : HandlerAction → Nat
  | .executed false => 1
  | _ => 0

/-- Counter butler.execute_fail. -/
def counterExecuteFail : HandlerAction → Nat
  | .executed true => 1
  | _ => 0

/-- Whether a ConfigurationApplier (configureAsset) call was made. -/
def invokedConfigure : HandlerAction → Bool
  | .configured _ => true
  | _ => false

/-- Whether a CommandExecutor (executeCommand) call was made. -/
def invokedExecute : HandlerAction → Bool
  | .executed _ => true
  | _ => false

/-- The Bmc device handle variant (bmclib devices.Bmc) as the results its
capability calls return: (success, error) pairs, plus the identity data the
butler reads. -/
structure BmcDevice where
  hardwareType : String := ""
  vendor : String := ""
  serialResult : String × Option String := ("", none)
  powerCycleBmcResult : Bool × Option String := (false, none)
  powerCycleResult : Bool × Option String := (false, none)
  classResult : String × Option String := ("", none)
  updateFirmwareResult : Bool × String × Option String := (false, "", none)
  checkFirmwareVersionResult : String × Option String := ("", none)
deriving DecidableEq

/-- The Cmc device handle variant (bmclib devices.Cmc). -/
structure CmcDevice where
  hardwareType : String := ""
  vendor : String := ""
  serialResult : String × Option String := ("", none)
deriving DecidableEq

/-- The device handle returned by a successful bmclogin Login: the open
type-switch of the source is a tagged variant; `unknownClient` is a handle of
any other dynamic type. -/
inductive DeviceClient where
  | bmcClient (dev : BmcDevice)
  | cmcClient (dev : CmcDevice)
  | unknownClient (typeName : String)
deriving DecidableEq

/-- Session events observable at the Device Session boundary. -/
inductive DevEvent where
  | loginAttempt
  | sessionClose
deriving DecidableEq

/-- Butler.executeCommandBmc (execute.go lines 97-119): maps a command name
to a capability call and returns (success, output, error); an unrecognized
command returns the zero success value and an unknown-command error. -/
def executeCommandBmc (bmc : BmcDevice) (command : String) :
    Bool × String × Option String :=
  match command with
  | "bmc-reset" => (bmc.powerCycleBmcResult.1, "", bmc.powerCycleBmcResult.2)
  | "powercycle" => (bmc.powerCycleResult.1, "", bmc.powerCycleResult.2)
  | "firmware-update" =>
    match bmc.classResult with
    | (_, some e) => (false, "", some e)
    | (_, none) => bmc.updateFirmwareResult
  | "firmware-version" =>
    (bmc.checkFirmwareVersionResult.2 = none, bmc.checkFirmwareVersionResult.1,
     bmc.checkFirmwareVersionResult.2)
  | _ => (false, "", some ("unknown command: " ++ command))

/-- Butler.executeCommand (execute.go lines 19-95).  `loginResult` embeds
bmcConn.Login(): an error or the device handle plus the active address.
Returns the error value, the updated asset and the session events, in
program order.  In the Bmc arm the source re-declares err with `:=`, which
shadows the named return value: a failing or unsuccessful command is logged
but the function still returns the outer err, which is nil after a
successful login. -/
def executeCommand (dryRun : Bool)
    (loginResult : Except String (DeviceClient × String)) (command : String)
    (a : Asset) : Option String × Asset × List DevEvent :=
  if dryRun then (none, a, [])
  else
    match loginResult with
    | .error e => (some e, a, [.loginAttempt])
    | .ok (client, activeIP) =>
      let a := { a with ipAddress := activeIP }
      match client with
      | .bmcClient bmc =>
        let _ := executeCommandBmc bmc command
        (none, a, [.loginAttempt, .sessionClose])
      | .cmcClient _ =>
        (none, a, [.loginAttempt, .sessionClose])
      | .unknownClient _ =>
        (some "unknown asset type", a, [.loginAttempt])

/-- Butler.configureAsset (configure.go lines 788-915).  `renderedConfigNil`
embeds LoadConfigResources returning nil (no renderable configuration);
`cmcSetup` whether the rendered chassis config has a SetupChassis section.
Returns (error, updated asset, session events).  The serial sanity check
only logs.  On the no-renderable-configuration paths and in the
unknown-variant arm the function returns before Close is called. -/
def configureAsset (dryRun : Bool)
    (loginResult : Except String (DeviceClient × String))
    (renderedConfigNil : Bool) (cmcSetup : Bool) (a : Asset) :
    Option String × Asset × List DevEvent :=
  if dryRun then (none, a, [])
  else
    match loginResult with
    | .error e => (some e, a, [.loginAttempt])
    | .ok (client, activeIP) =>
      let a := { a with ipAddress := activeIP }
      match client with
      | .bmcClient bmc =>
        let a := { a with type := "server", hardwareType := bmc.hardwareType,
                          vendor := bmc.vendor }
        if renderedConfigNil then
          (some "No BMC configuration to be applied!", a, [.loginAttempt])
        else
          (none, a, [.loginAttempt, .sessionClose])
      | .cmcClient cmc =>
        let a := { a with type := "chassis", hardwareType := cmc.hardwareType,
                          vendor := cmc.vendor }
        if renderedConfigNil then
          (some "No CMC configuration to be applied!", a, [.loginAttempt])
        else
          let _ := cmcSetup
          (none, a, [.loginAttempt, .sessionClose])
      | .unknownClient typeName =>
        (some ("Unknown device type \"" ++ typeName ++ "\"!"), a, [.loginAttempt])

/-- Invariant of the encQueryBySerial record loop: when the remaining record
serials are distinct, all still present in the missing list, and the missing
list has no duplicates, the fold succeeds and the multiset of serials in
found assets plus remaining missing serials is preserved; every appended
asset has at least one address. -/
theorem serialFold (pfxs : List String) :
    ∀ (data : List (String × Attributes)) (missing : List String)
      (assets : List Asset),
      missing.Nodup → (data.map Prod.fst).Nodup →
      (∀ k ∈ data.map Prod.fst, k ∈ missing) →
      ∃ p : List String × List Asset,
        data.foldlM (serialStep pfxs) (missing, assets) = some p ∧
        (p.2.map Asset.serial ++ p.1).Perm (assets.map Asset.serial ++ missing) ∧
        (∀ a ∈ p.2, a ∈ assets ∨ a.ipAddresses ≠ []) := by
  intro data
  induction data with
  | nil =>
    intro missing assets h1 _ _
    exact ⟨(missing, assets), rfl, List.Perm.refl _, fun a ha => Or.inl ha⟩
  | cons kv rest ih =>
    intro missing assets h1 h2 h3
    have h2' : (rest.map Prod.fst).Nodup := by
      rw [List.map_cons] at h2
      exact h2.of_cons
    by_cases hz : (SetBMCInterfaces pfxs kv.2).bmcIPAddresses.length = 0
    · have hstep : serialStep pfxs (missing, assets) kv = some (missing, assets) := by
        simp [serialStep, hz]
      obtain ⟨p, hp, hperm, hshape⟩ :=
        ih missing assets h1 h2' (fun k hk => h3 k (List.mem_cons_of_mem _ hk))
      exact ⟨p, by simpa [List.foldlM_cons, hstep] using hp, hperm, hshape⟩
    · have hk1 : kv.1 ∈ missing := h3 kv.1 (by simp)
      have hcount : missing.count kv.1 ≤ 1 :=
        List.nodup_iff_count_le_one.mp h1 kv.1
      have hpurge : purge kv.1 missing = some (missing.erase kv.1) :=
        purge_of_count_le_one kv.1 missing hcount
      have hstep : serialStep pfxs (missing, assets) kv =
          some (missing.erase kv.1, assets ++ [encFoundAsset pfxs kv]) := by
        simp [serialStep, hz, hpurge]
      have h1' : (missing.erase kv.1).Nodup := h1.erase _
      have h3' : ∀ k ∈ rest.map Prod.fst, k ∈ missing.erase kv.1 := by
        intro k hk
        have hne : k ≠ kv.1 := by
          intro he
          rw [List.map_cons] at h2
          exact (List.nodup_cons.mp h2).1 (he ▸ hk)
        exact (List.mem_erase_of_ne hne).mpr (h3 k (List.mem_cons_of_mem _ hk))
      obtain ⟨p, hp, hperm, hshape⟩ :=
        ih (missing.erase kv.1) (assets ++ [encFoundAsset pfxs kv]) h1' h2' h3'
      refine ⟨p, by simpa [List.foldlM_cons, hstep] using hp, ?_, ?_⟩
      · refine hperm.trans ?_
        have heq : ((assets ++ [encFoundAsset pfxs kv]).map Asset.serial ++
              missing.erase kv.1) =
            assets.map Asset.serial ++ (kv.1 :: missing.erase kv.1) := by
          simp [encFoundAsset_serial]
        rw [heq]
        exact List.Perm.append_left _ (List.perm_cons_erase hk1).symm
      · intro a ha
        rcases hshape a ha with hmem | hne
        · rcases List.mem_append.mp hmem with hin | hnew
          · exact Or.inl hin
          · right
            have ha2 : a = encFoundAsset pfxs kv := by simpa using hnew
            rw [ha2, encFoundAsset_ipAddresses]
            intro hnil
            exact hz (by rw [hnil]; rfl)
        · exact Or.inr hne

/-- A left fold is unchanged by removing the elements its body ignores. -/
theorem foldl_eq_foldl_filter {α β : Type} (p : β → Bool) (f : α → β → α)
    (h : ∀ acc b, p b = false → f acc b = acc) :
    ∀ (l : List β) (acc : α), l.foldl f acc = (l.filter p).foldl f acc := by
  intro l
  induction l with
  | nil => intro acc; rfl
  | cons b rest ih =>
    intro acc
    by_cases hb : p b = true
    · simp [List.filter_cons, hb, ih]
    · have hskip := h acc b (by simpa using hb)
      simp [List.filter_cons, hb, hskip, ih]

/-- The rows the csv strategies act on: non-nil with a nonempty bmcaddress. -/
def csvKeep : Option CsvAsset → Bool
  | none => false
  | some item => !(item.bmcAddress == "")

/-- Addresses added by SetBMCInterfaces are never empty or 0.0.0.0: every
address of the result was already present or passed the validity test. -/
theorem setBMCInterfaces_valid (pfxs : List String) :
    ∀ (nics : List NetworkInterface) (attrs : Attributes),
      ∀ ip ∈ (nics.foldl (bmcNicStep pfxs) attrs).bmcIPAddresses,
        ip ∈ attrs.bmcIPAddresses ∨ (ip ≠ "" ∧ ip ≠ "0.0.0.0") := by
  intro nics
  induction nics with
  | nil => intro attrs ip hip; exact Or.inl hip
  | cons nic rest ih =>
    intro attrs ip hip
    rw [List.foldl_cons] at hip
    rcases ih (bmcNicStep pfxs attrs nic) ip hip with hmem | hvalid
    · unfold bmcNicStep at hmem
      by_cases hc : stringHasPfx nic.name pfxs = true ∧
          nic.ipAddress ≠ "" ∧ nic.ipAddress ≠ "0.0.0.0"
      · rw [if_pos hc] at hmem
        simp only [List.mem_append, List.mem_singleton] at hmem
        rcases hmem with hold | hnew
        · exact Or.inl hold
        · exact Or.inr (hnew ▸ hc.2)
      · rw [if_neg hc] at hmem
        exact Or.inl hmem
    · exact Or.inr hvalid

/-- The inner pagination loop sends exactly the pages at offsets
0, limit, ..., K*limit when K is the first iteration whose completed page
signals end-of-data or observes the interrupt, provided enough fuel. -/
theorem assetIterLoop_eq (query : Nat → List Asset × Bool) (intr : Nat → Bool)
    (limit : Nat) :
    ∀ (m start fuel : Nat),
      (∀ j, j < m → ((query ((start + j) * limit)).2 || intr (start + j)) = false) →
      ((query ((start + m) * limit)).2 || intr (start + m)) = true →
      m < fuel →
      assetIterLoop query intr limit (start * limit) start fuel =
        (List.range (m + 1)).map
          (fun j => ((start + j) * limit, (query ((start + j) * limit)).1)) := by
  intro m
  induction m with
  | zero =>
    intro start fuel _ h2 hf
    match fuel, hf with
    | fuel + 1, _ =>
      simp only [Nat.add_zero] at h2
      simp [assetIterLoop, h2, List.range_succ]
  | succ m ih =>
    intro start fuel h1 h2 hf
    match fuel, hf with
    | fuel + 1, hf =>
      have h0 : ((query (start * limit)).2 || intr start) = false := by
        have := h1 0 (Nat.succ_pos m)
        simpa using this
      have h1' : ∀ j, j < m →
          ((query ((start + 1 + j) * limit)).2 || intr (start + 1 + j)) = false := by
        intro j hj
        have := h1 (j + 1) (by omega)
        have harr : start + (j + 1) = start + 1 + j := by omega
        rwa [harr] at this
      have h2' : ((query ((start + 1 + m) * limit)).2 || intr (start + 1 + m)) = true := by
        have harr : start + (m + 1) = start + 1 + m := by omega
        rwa [harr] at h2
      have hoffs : start * limit + limit = (start + 1) * limit := by ring
      have hstep : assetIterLoop query intr limit (start * limit) start (fuel + 1) =
          (start * limit, (query (start * limit)).1) ::
            assetIterLoop query intr limit (start * limit + limit) (start + 1) fuel := by
        simp [assetIterLoop, h0]
      rw [hstep, hoffs, ih (start + 1) fuel h1' h2' (by omega)]
      conv_rhs => rw [List.range_succ_eq_map]
      rw [List.map_cons, List.map_map]
      congr 1
      apply List.map_congr_left
      intro j _
      have harr : start + 1 + j = start + (j + 1) := by omega
      show ((start + 1 + j) * limit, (query ((start + 1 + j) * limit)).1) =
        ((start + (j + 1)) * limit, (query ((start + (j + 1)) * limit)).1)
      rw [harr]

/-- A concrete ENC record with one valid BMC interface address. -/
def exAttrsValid : Attributes :=
  { location := "loc1",
    networkInterfaces := some
      [{ name := "bmc0", macAddress := "aa:bb", ipAddress := "10.0.0.5" }],
    extras := {} }

/-- A concrete ENC record whose only interface is not a BMC NIC, so the
record resolves to zero valid BMC addresses. -/
def exAttrsNoValid : Attributes :=
  { location := "loc1",
    networkInterfaces := some
      [{ name := "eth0", macAddress := "aa:bb", ipAddress := "10.9.9.9" }],
    extras := { state := "live", company := "acme" } }

/-- A concrete Bmc device handle with default capability results. -/
def exBmcDev : BmcDevice := {}

/-- A concrete ENC by-serial response with one found record. -/
def exSerialData : List (String × Attributes) := [("A", exAttrsValid)]

/-- C1, counterexample: the claim is false as stated.  For the CSV
AssetIterBySerial variant a requested serial with no matching row produces
no asset at all (the variant emits no placeholders): with one requested
serial and an empty record file, zero assets are emitted instead of one. -/
theorem claim1_counterexample :
    Csv.AssetIterBySerial "A" [] = [] ∧ (splitComma "A").length = 1 := by
  decide

/-- C1, amended: the one-asset-per-serial guarantee holds for the ENC
encQueryBySerial when the response is nonempty, the requested serials are
distinct, and every returned record key is one of the requested serials
(record keys are distinct as Go map keys): the emitted serials are a
permutation of the requested ones (so exactly one asset per requested
serial, none omitted, none duplicated), and every emitted asset either has
at least one address or is a placeholder carrying only its serial.  An
empty ENC response instead emits no assets at all, and the CSV variant
emits only found rows (each with exactly one address, never a
placeholder). -/
theorem claim1_by_serial_coverage :
    (∀ (pfxs : List String) (serials : String) (data : List (String × Attributes)),
        data ≠ [] →
        (splitComma serials).Nodup →
        (data.map Prod.fst).Nodup →
        (∀ k ∈ data.map Prod.fst, k ∈ splitComma serials) →
        ∃ out, encQueryBySerial pfxs serials data = some out ∧
          (out.map Asset.serial).Perm (splitComma serials) ∧
          ∀ a ∈ out, a.ipAddresses ≠ [] ∨ a = { serial := a.serial }) ∧
    (∀ (pfxs : List String) (serials : String),
        encQueryBySerial pfxs serials [] = some []) ∧
    (∀ (serials : String) (records : List (Option CsvAsset)),
        ∀ a ∈ Csv.AssetIterBySerial serials records, a.ipAddresses.length = 1) := by
  refine ⟨?_, ?_, ?_⟩
  · intro pfxs serials data hne hnd1 hnd2 hsub
    obtain ⟨⟨miss, asts⟩, hp, hperm, hshape⟩ :=
      serialFold pfxs data (splitComma serials) [] hnd1 hnd2 hsub
    refine ⟨asts ++ miss.map (fun serial => { serial := serial, ipAddresses := [] }),
      ?_, ?_, ?_⟩
    · unfold encQueryBySerial
      rw [if_neg (by simpa using hne), hp]
    · rw [List.map_append, List.map_map]
      have hcomp : (Asset.serial ∘ fun serial =>
          ({ serial := serial, ipAddresses := [] } : Asset)) = id := rfl
      rw [hcomp, List.map_id]
      simpa using hperm
    · intro a ha
      rcases List.mem_append.mp ha with hin | hph
      · rcases hshape a hin with habs | hne2
        · exact absurd habs (List.not_mem_nil a)
        · exact Or.inl hne2
      · right
        obtain ⟨s, _, hs⟩ := List.mem_map.mp hph
        rw [← hs]
  · intro pfxs serials
    rfl
  · intro serials records a ha
    have hrow : ∀ (serial : String) (rs : List (Option CsvAsset)) (acc : List Asset),
        (∀ x ∈ acc, x.ipAddresses.length = 1) →
        ∀ x ∈ rs.foldl (csvSerialRowStep serial) acc, x.ipAddresses.length = 1 := by
      intro serial rs
      induction rs with
      | nil => intro acc hacc x hx; exact hacc x hx
      | cons r rest ih =>
        intro acc hacc x hx
        rw [List.foldl_cons] at hx
        refine ih (csvSerialRowStep serial acc r) ?_ x hx
        intro y hy
        cases r with
        | none => exact hacc y hy
        | some item =>
          simp only [csvSerialRowStep] at hy
          by_cases h1 : item.bmcAddress = ""
          · rw [if_pos h1] at hy; exact hacc y hy
          · rw [if_neg h1] at hy
            by_cases h2 : item.serial = serial
            · rw [if_pos h2] at hy
              rcases List.mem_append.mp hy with hold | hnew
              · exact hacc y hold
              · have hy2 : y = csvRowAsset item := by simpa using hnew
                rw [hy2]; rfl
            · rw [if_neg h2] at hy; exact hacc y hy
    have houter : ∀ (ss : List String) (acc : List Asset),
        (∀ x ∈ acc, x.ipAddresses.length = 1) →
        ∀ x ∈ ss.foldl
            (fun assets serial => records.foldl (csvSerialRowStep serial) assets) acc,
          x.ipAddresses.length = 1 := by
      intro ss
      induction ss with
      | nil => intro acc hacc x hx; exact hacc x hx
      | cons sr rest ih =>
        intro acc hacc x hx
        rw [List.foldl_cons] at hx
        exact ih _ (fun y hy => hrow sr records acc hacc y hy) x hx
    exact houter (splitComma serials) []
      (fun x hx => absurd hx (List.not_mem_nil x)) a ha

/-- C1, witness: requesting serials A,B against a response that resolves
only A yields exactly the two assets, with serials a permutation of the
request. -/
theorem claim1_witness :
    (exSerialData ≠ [] ∧ (splitComma "A,B").Nodup ∧
      (exSerialData.map Prod.fst).Nodup ∧
      (∀ k ∈ exSerialData.map Prod.fst, k ∈ splitComma "A,B")) ∧
    (∃ out, encQueryBySerial ["bmc"] "A,B" exSerialData = some out ∧
      (out.map Asset.serial).Perm (splitComma "A,B") ∧
      ∀ a ∈ out, a.ipAddresses ≠ [] ∨ a = { serial := a.serial }) :=
  ⟨⟨by decide, by decide, by decide, by decide⟩,
    claim1_by_serial_coverage.1 ["bmc"] "A,B" exSerialData
      (by decide) (by decide) (by decide) (by decide)⟩

/-- C2: the code violates the claim.  With a single requested IP and a
response containing one record with zero valid BMC addresses,
encQueryByIP emits TWO placeholder assets for that one requested IP: one
from populateAssetsWithNoAttributes invoked inside the record loop
(enc.go line 472) and one from the final missing-IP pass (enc.go lines
496-500). -/
theorem claim2_duplicate_assets :
    encQueryByIP ["bmc"] "10.0.0.1" false [("SER1", exAttrsNoValid)] =
      some [{ ipAddresses := ["10.0.0.1"] }, { ipAddresses := ["10.0.0.1"] }] ∧
    (splitComma "10.0.0.1").length = 1 := by
  decide

/-- C3, counterexample: an asset whose address list is two 0.0.0.0 entries
(every entry unusable) is NOT dropped by the no-IP filter — the source
tests only for an empty list or a single 0.0.0.0 entry — and the no-IP
counter stays 0. -/
theorem claim3_counterexample :
    msgHandler {} { asset := { ipAddresses := ["0.0.0.0", "0.0.0.0"] } } none none ≠
      HandlerAction.droppedNoIP ∧
    counterNoIP
      (msgHandler {} { asset := { ipAddresses := ["0.0.0.0", "0.0.0.0"] } } none none) = 0 := by
  decide

/-- C3, amended: msgHandler drops with the no-IP counter incremented once
and neither applier invoked exactly for an empty address list or the
single entry 0.0.0.0 (not for every list of unusable entries); and
SetBMCInterfaces never adds an address that is empty or 0.0.0.0 — every
address of its result was already present or is valid. -/
theorem claim3_noip_filter :
    (∀ (b : ButlerParams) (msg : Msg) (er cr : Option String),
        b.interrupt = false →
        (msg.asset.ipAddresses = [] ∨ msg.asset.ipAddresses = ["0.0.0.0"]) →
        msgHandler b msg er cr = HandlerAction.droppedNoIP ∧
        invokedConfigure (msgHandler b msg er cr) = false ∧
        invokedExecute (msgHandler b msg er cr) = false ∧
        counterNoIP (msgHandler b msg er cr) = 1) ∧
    (∀ (pfxs : List String) (attributes : Attributes),
        ∀ ip ∈ (SetBMCInterfaces pfxs attributes).bmcIPAddresses,
          ip ∈ attributes.bmcIPAddresses ∨ (ip ≠ "" ∧ ip ≠ "0.0.0.0")) := by
  constructor
  · intro b msg er cr h1 h2
    have hcond : msg.asset.ipAddresses.length = 0 ∨
        (msg.asset.ipAddresses.length = 1 ∧
          msg.asset.ipAddresses.getD 0 "" = "0.0.0.0") := by
      rcases h2 with he | hz
      · left; rw [he]; rfl
      · right; rw [hz]; exact ⟨rfl, rfl⟩
    have hh : msgHandler b msg er cr = HandlerAction.droppedNoIP := by
      unfold msgHandler
      rw [if_neg (by simp [h1]), if_pos hcond]
    exact ⟨hh, by rw [hh]; rfl, by rw [hh]; rfl, by rw [hh]; rfl⟩
  · intro pfxs attributes ip hip
    unfold SetBMCInterfaces at hip
    cases hnic : attributes.networkInterfaces with
    | none => rw [hnic] at hip; exact Or.inl hip
    | some nics =>
      rw [hnic] at hip
      exact setBMCInterfaces_valid pfxs nics attributes ip hip

/-- C3, witness: a single-0.0.0.0 asset is dropped with the counter at 1,
and the valid address resolved from the example record satisfies the
validity disjunction. -/
theorem claim3_witness :
    (msgHandler {} { asset := { ipAddresses := ["0.0.0.0"] } } none none =
        HandlerAction.droppedNoIP ∧
      invokedConfigure
        (msgHandler {} { asset := { ipAddresses := ["0.0.0.0"] } } none none) = false ∧
      invokedExecute
        (msgHandler {} { asset := { ipAddresses := ["0.0.0.0"] } } none none) = false ∧
      counterNoIP
        (msgHandler {} { asset := { ipAddresses := ["0.0.0.0"] } } none none) = 1) ∧
    ("10.0.0.5" ∈ exAttrsValid.bmcIPAddresses ∨
      ("10.0.0.5" ≠ "" ∧ "10.0.0.5" ≠ "0.0.0.0")) :=
  ⟨claim3_noip_filter.1 {} { asset := { ipAddresses := ["0.0.0.0"] } } none none
      rfl (Or.inr rfl),
    claim3_noip_filter.2 ["bmc"] exAttrsValid "10.0.0.5" (by decide)⟩

/-- C4, counterexample: with both action flags set on an eligible asset,
the dispatcher runs the CommandExecutor, not the ConfigurationApplier —
the source switch tests Execute before Configure, the reverse of the
claimed policy order. -/
theorem claim4_counterexample :
    invokedConfigure (msgHandler {}
      { asset := { ipAddresses := ["10.0.0.1"], configure := true, execute := true } }
      none none) = false ∧
    invokedExecute (msgHandler {}
      { asset := { ipAddresses := ["10.0.0.1"], configure := true, execute := true } }
      none none) = true := by
  decide

/-- C4, amended: on a dispatch that passes the cancellation, no-IP and
location filters, exactly one of the two appliers runs (or neither when no
flag is set, a logged no-op); the priority is execute first: the
CommandExecutor runs whenever the execute flag is set, and the
ConfigurationApplier runs only when execute is not set and configure is. -/
theorem claim4_dispatch (b : ButlerParams) (msg : Msg) (er cr : Option String)
    (h1 : b.interrupt = false)
    (h2 : ¬(msg.asset.ipAddresses.length = 0 ∨
        (msg.asset.ipAddresses.length = 1 ∧
          msg.asset.ipAddresses.getD 0 "" = "0.0.0.0")))
    (h3 : ¬(msg.asset.location ≠ "" ∧
        myLocation b.locations msg.asset.location = false ∧
        b.ignoreLocation = false)) :
    msgHandler b msg er cr =
      if msg.asset.execute = true then HandlerAction.executed er.isSome
      else if msg.asset.configure = true then HandlerAction.configured cr.isSome
      else HandlerAction.unknownAction := by
  unfold msgHandler
  rw [if_neg (by simp [h1]), if_neg h2, if_neg h3]
  by_cases hx : msg.asset.execute = true
  · rw [if_pos hx, if_pos hx]
    cases er <;> rfl
  · rw [if_neg hx, if_neg hx]
    by_cases hc : msg.asset.configure = true
    · rw [if_pos hc, if_pos hc]
      cases cr <;> rfl
    · rw [if_neg hc, if_neg hc]

/-- C4, witness: an eligible execute-flagged asset whose executor errors is
dispatched as a failed execute action. -/
theorem claim4_witness :
    msgHandler {} { asset := { ipAddresses := ["10.0.0.1"], execute := true } }
      (some "boom") none = HandlerAction.executed true := by
  have h := claim4_dispatch {}
    { asset := { ipAddresses := ["10.0.0.1"], execute := true } }
    (some "boom") none rfl (by decide) (by decide)
  simpa using h

/-- C5: the code violates the claim.  For the unknown command "foo",
executeCommandBmc returns an error, but executeCommand still returns nil
to msgHandler (the `:=` in the Bmc arm shadows the named return err), so
the dispatch is accounted as a success: execute_success is incremented and
execute_fail is not. -/
theorem claim5_error_swallowed :
    (executeCommandBmc exBmcDev "foo").2.2 = some "unknown command: foo" ∧
    (executeCommand false (.ok (.bmcClient exBmcDev, "10.0.0.9")) "foo" {}).1 = none ∧
    msgHandler {}
      { asset := { ipAddresses := ["10.0.0.9"], execute := true },
        assetExecute := "foo" }
      (executeCommand false (.ok (.bmcClient exBmcDev, "10.0.0.9")) "foo" {}).1 none =
      HandlerAction.executed false ∧
    counterExecuteSuccess (HandlerAction.executed false) = 1 ∧
    counterExecuteFail (HandlerAction.executed false) = 0 := by
  decide

/-- C6: the code violates the claim.  With a successful login against a Bmc
device and no renderable configuration, configureAsset returns the error
without ever invoking Close: the session events contain the login but no
session close. -/
theorem claim6_session_leak :
    (configureAsset false (.ok (.bmcClient exBmcDev, "10.0.0.9")) true false {}).1 =
      some "No BMC configuration to be applied!" ∧
    DevEvent.loginAttempt ∈
      (configureAsset false (.ok (.bmcClient exBmcDev, "10.0.0.9")) true false {}).2.2 ∧
    DevEvent.sessionClose ∉
      (configureAsset false (.ok (.bmcClient exBmcDev, "10.0.0.9")) true false {}).2.2 := by
  decide

/-- C7: for every configured asset type, the per-type pagination loop
starts at offset 0 and sends the pages at offsets 0, limit, 2*limit, ...,
K*limit, where K is the first iteration whose completed page signals
end-of-data or observes the interrupt: the in-flight page is always
fetched and sent before the loop exits, and the offsets are strictly
increasing whenever limit is positive. -/
theorem claim7_pagination (types : List String)
    (query : String → Nat → List Asset × Bool) (intr : String → Nat → Bool)
    (limit fuel : Nat) (t : String) (K : Nat)
    (ht : t ∈ types)
    (hmin : ∀ j, j < K → ((query t (j * limit)).2 || intr t j) = false)
    (hstop : ((query t (K * limit)).2 || intr t K) = true)
    (hfuel : K < fuel) :
    (t, assetIterLoop (query t) (intr t) limit 0 0 fuel) ∈
      Enc.AssetIter types query intr limit fuel ∧
    assetIterLoop (query t) (intr t) limit 0 0 fuel =
      (List.range (K + 1)).map (fun j => (j * limit, (query t (j * limit)).1)) ∧
    (0 < limit →
      ((assetIterLoop (query t) (intr t) limit 0 0 fuel).map Prod.fst).Pairwise
        (· < ·)) := by
  have heq : assetIterLoop (query t) (intr t) limit 0 0 fuel =
      (List.range (K + 1)).map (fun j => (j * limit, (query t (j * limit)).1)) := by
    have h := assetIterLoop_eq (query t) (intr t) limit K 0 fuel
      (by intro j hj; simpa using hmin j hj) (by simpa using hstop) hfuel
    simpa using h
  refine ⟨List.mem_map.mpr ⟨t, ht, rfl⟩, heq, ?_⟩
  intro hl
  rw [heq, List.map_map]
  have hcomp : (Prod.fst ∘ fun j => (j * limit, (query t (j * limit)).1)) =
      fun j => j * limit := rfl
  rw [hcomp]
  have hp : (List.range (K + 1)).Pairwise (· < ·) := List.pairwise_lt_range _
  exact hp.map _ fun a b hab => Nat.mul_lt_mul_of_lt_of_le hab (Nat.le_refl _) hl

/-- A concrete offset query: empty pages, end-of-data from offset 10 on. -/
def exQuery : String → Nat → List Asset × Bool :=
  fun _ offset => ([], decide (10 ≤ offset))

/-- A concrete interrupt schedule that never fires. -/
def exIntr : String → Nat → Bool := fun _ _ => false

/-- C7, witness: with limit 5 the loop for type servers stops after the
page at offset 10 (iteration 2) and has sent exactly offsets 0, 5, 10. -/
theorem claim7_witness :
    ("servers" ∈ ["servers"] ∧
      (∀ j, j < 2 → ((exQuery "servers" (j * 5)).2 || exIntr "servers" j) = false) ∧
      ((exQuery "servers" (2 * 5)).2 || exIntr "servers" 2) = true ∧ 2 < 4) ∧
    (("servers", assetIterLoop (exQuery "servers") (exIntr "servers") 5 0 0 4) ∈
        Enc.AssetIter ["servers"] exQuery exIntr 5 4 ∧
      assetIterLoop (exQuery "servers") (exIntr "servers") 5 0 0 4 =
        (List.range 3).map (fun j => (j * 5, (exQuery "servers" (j * 5)).1)) ∧
      (0 < 5 →
        ((assetIterLoop (exQuery "servers") (exIntr "servers") 5 0 0 4).map
            Prod.fst).Pairwise (· < ·))) :=
  ⟨⟨by decide, by decide, by decide, by decide⟩,
    claim7_pagination ["servers"] exQuery exIntr 5 4 "servers" 2
      (by decide) (by decide) (by decide) (by decide)⟩

/-- C8: with dry-run enabled, configureAsset and executeCommand return nil
for every login outcome, command, configuration state and asset, with an
empty session event trace — zero login attempts and no device
interaction. -/
theorem claim8_dry_run :
    ∀ (lr lr2 : Except String (DeviceClient × String)) (rc cs : Bool)
      (cmd : String) (a a2 : Asset),
      configureAsset true lr rc cs a = (none, a, []) ∧
      executeCommand true lr2 cmd a2 = (none, a2, []) :=
  fun _ _ _ _ _ _ _ => ⟨rfl, rfl⟩

/-- C9: the code violates the claim.  The fixed-IP-list source emits one
asset per input address, but stores the address in the scalar `ipAddress`
field: the candidate BMC address list `ipAddresses` stays empty, so the
dispatcher drops every such asset as having no IP. -/
theorem claim9_iplist_scalar_field :
    IPList.AssetIter "10.0.0.1" = [{ ipAddress := "10.0.0.1" }] ∧
    (IPList.AssetIter "10.0.0.1").map Asset.ipAddresses = [[]] ∧
    msgHandler {} { asset := { ipAddress := "10.0.0.1" } } none none =
      HandlerAction.droppedNoIP := by
  decide

/-- C10: in all three CSV retrieval strategies, nil rows and rows with an
empty bmcaddress are skipped entirely: each strategy computes exactly what
it computes on the record list with those rows removed, so such a row
never produces an asset and never contributes attributes to one. -/
theorem claim10_csv_skip :
    ∀ (records : List (Option CsvAsset)) (serials ips : String),
      Csv.AssetIter records = Csv.AssetIter (records.filter csvKeep) ∧
      Csv.AssetIterBySerial serials records =
        Csv.AssetIterBySerial serials (records.filter csvKeep) ∧
      Csv.AssetIterByIP ips records =
        Csv.AssetIterByIP ips (records.filter csvKeep) := by
  intro records serials ips
  have hskip1 : ∀ (acc : List Asset) (r : Option CsvAsset),
      csvKeep r = false → csvRowStep acc r = acc := by
    intro acc r hr
    cases r with
    | none => rfl
    | some item =>
      have hb : item.bmcAddress = "" := by
        simpa [csvKeep] using hr
      simp [csvRowStep, hb]
  have hskip2 : ∀ (serial : String) (acc : List Asset) (r : Option CsvAsset),
      csvKeep r = false → csvSerialRowStep serial acc r = acc := by
    intro serial acc r hr
    cases r with
    | none => rfl
    | some item =>
      have hb : item.bmcAddress = "" := by
        simpa [csvKeep] using hr
      simp [csvSerialRowStep, hb]
  have hskip3 : ∀ (ip : String) (a : Asset) (r : Option CsvAsset),
      csvKeep r = false → csvIPRowStep ip a r = a := by
    intro ip a r hr
    cases r with
    | none => rfl
    | some item =>
      have hb : item.bmcAddress = "" := by
        simpa [csvKeep] using hr
      simp [csvIPRowStep, hb]
  refine ⟨?_, ?_, ?_⟩
  · exact foldl_eq_foldl_filter csvKeep csvRowStep hskip1 records []
  · unfold Csv.AssetIterBySerial
    have hfun : (fun (assets : List Asset) (serial : String) =>
          records.foldl (csvSerialRowStep serial) assets) =
        fun assets serial =>
          (records.filter csvKeep).foldl (csvSerialRowStep serial) assets := by
      funext assets serial
      exact foldl_eq_foldl_filter csvKeep (csvSerialRowStep serial)
        (hskip2 serial) records assets
    rw [hfun]
  · unfold Csv.AssetIterByIP
    have hfun : (fun (assets : List Asset) (ip : String) =>
          assets ++ [records.foldl (csvIPRowStep ip) { ipAddresses := [ip] }]) =
        fun assets ip =>
          assets ++
            [(records.filter csvKeep).foldl (csvIPRowStep ip) { ipAddresses := [ip] }] := by
      funext assets ip
      rw [foldl_eq_foldl_filter csvKeep (csvIPRowStep ip) (hskip3 ip) records _]
    rw [hfun]

end BmcButler
